import Mathlib

/-!
Verification of `csv_plot/background_processor.py`.

Shallow embedding of the `BackgroundProcessor` worker loop.  Python floats are
modelled as exact rationals (`ℚ`); `datetime` values are modelled as the
rational timestamp they carry (`datetime.fromtimestamp` / `.timestamp()` are
mutually inverse up to this abstraction).  The `selector` collaborator lives in
`csv_plot/csv.py`, which is not part of the sources; it is modelled from the
spec as an opaque function from queries to selection results, passed as a
parameter to the worker loop.

The channel is modelled by batches of messages: each batch is the message the
blocking `recv()` returns for one loop iteration together with the messages
that are already waiting in the pipe (returned by the non-blocking
`poll()`/`recv()` drain) during that iteration.
-/

/-- A Python value usable as an X coordinate: either a plain number
(`int`/`float`) or a `datetime` carrying its timestamp. -/
inductive XVal where
  | num (v : ℚ)
  | dt (ts : ℚ)
  deriving DecidableEq

/-- The Python types that a caller can configure as the X axis type
(`x_and_type`) or as Y types. -/
inductive PyType where
  | int
  | float
  | datetime
  deriving DecidableEq

/-- A Y series of paired `mins`/`maxs` sample sequences (`Selected.Y` in the
source). -/
structure YSeries where
  mins : List ℚ
  maxs : List ℚ
  deriving DecidableEq

/-- Modelled from the spec: the Selection Result returned by the missing
`csv_plot/csv.py` selector — an ordered X sequence paired with a Y-key →
Y-series mapping (`selected.xs`, `selected.name_to_y`). -/
structure Selected where
  xs : List XVal
  name_to_y : List (String × YSeries)
  deriving DecidableEq

/-- A message received on the worker's side of the pipe: `None` (the `Stop`
sentinel) or a pair of optional floats (a range request). -/
inductive Message where
  | stop
  | request (start stop : Option ℚ)
  deriving DecidableEq

/-- A message the worker sends back on the pipe: `None` (the `StopAck`
sentinel) or `(xs, name_to_y)` data. -/
inductive Response where
  | stopAck
  | data (xs : List XVal) (name_to_y : List (String × YSeries))
  deriving DecidableEq

/-- A query the worker issues against the opened selector: `sel[:]` or
`sel[start:stop]`. -/
inductive Query where
  | selectAll
  | selectRange (start stop : XVal)
  deriving DecidableEq

/-- How a (finite) run of the worker loop ends: clean `Stop` shutdown, an
uncaught exception, or blocking forever on `recv()` with no further input. -/
inductive Outcome where
  | stopped
  | crashed
  | blocked
  deriving DecidableEq

/-- The fixed margin constant from the source (`MARGIN = 0.2`). -/
def MARGIN : ℚ := 0.2

/-- `datetime.fromtimestamp`: turns a raw float timestamp into a `datetime`. -/
def fromtimestamp (t : ℚ) : XVal := XVal.dt t

/-- `x.timestamp()`: defined on `datetime` values only; calling it on a plain
number raises (`none`). -/
def timestamp : XVal → Option ℚ
  | XVal.dt t => some t
  | XVal.num _ => none

/-- The list comprehension `[x.timestamp() for x in selected.xs]`: fails if any
element is not a `datetime`. -/
def timestampAll : List XVal → Option (List ℚ)
  | [] => some []
  | x :: rest =>
    match timestamp x with
    | none => none
    | some t => (timestampAll rest).map (fun ts => t :: ts)

/-- The X-normalization step of `run`: `first_x, *_ = selected.xs` (raises on
an empty sequence), then convert every element via `.timestamp()` when the
first element is a `datetime`, else pass the sequence through unchanged. -/
def normalizeXs : List XVal → Option (List XVal)
  | [] => none
  | x :: rest =>
    match x with
    | XVal.dt _ => (timestampAll (x :: rest)).map (List.map XVal.num)
    | XVal.num _ => some (x :: rest)

/-- Translation of the surviving request into a selector query: the `assert` /
`if`/`elif`/`else` block of `run`.  Both endpoints absent selects everything;
both present expands by `MARGIN * (stop - start)` on each side and converts the
bounds with `datetime.fromtimestamp`; exactly one endpoint present trips the
assertion (`none`: the worker crashes). -/
def toQuery : Option ℚ → Option ℚ → Option Query
  | none, none => some Query.selectAll
  | some a, some b =>
    let visible_range := b - a
    let visible_range_with_margin := MARGIN * visible_range
    some (Query.selectRange (fromtimestamp (a - visible_range_with_margin))
      (fromtimestamp (b + visible_range_with_margin)))
  | _, _ => none

/-- The backlog drain (`while self.__connection.poll(): item = recv(); ...`):
keeps replacing the working item with each waiting message; returns at the
first `Stop`, leaving the remaining backlog unread. -/
def drain : Message → List Message → Message × List Message
  | item, [] => (item, [])
  | _, Message.stop :: rest => (Message.stop, rest)
  | _, Message.request a b :: rest => drain (Message.request a b) rest

/-- What one loop iteration does after the blocking `recv()` returned `m` with
backlog `batch` waiting in the pipe. -/
inductive StepOut where
  | stopped
  | crashed (qs : List Query)
  | answered (q : Query) (r : Response)

/-- One iteration of the worker loop body over the opened selector `sel`:
handle `Stop`, drain the backlog latest-wins, translate the surviving request,
query the selector and normalize the result. -/
def step (sel : Query → Selected) : Message → List Message → StepOut
  | Message.stop, _ => StepOut.stopped
  | Message.request a b, batch =>
    match drain (Message.request a b) batch with
    | (Message.stop, _) => StepOut.stopped
    | (Message.request a2 b2, _) =>
      match toQuery a2 b2 with
      | none => StepOut.crashed []
      | some q =>
        let selected := sel q
        match normalizeXs selected.xs with
        | none => StepOut.crashed [q]
        | some xs => StepOut.answered q (Response.data xs selected.name_to_y)

/-- The worker loop (`while True:` in `run`) over a schedule of message
batches.  Returns the selector queries issued, the responses sent on the pipe,
and how the run ended. -/
def loop (sel : Query → Selected) : List (Message × List Message) → List Query × List Response × Outcome
  | [] => ([], [], Outcome.blocked)
  | (m, batch) :: later =>
    match step sel m batch with
    | StepOut.stopped => ([], [Response.stopAck], Outcome.stopped)
    | StepOut.crashed qs => (qs, [], Outcome.crashed)
    | StepOut.answered q r =>
      let rest := loop sel later
      (q :: rest.1, r :: rest.2.1, rest.2.2)

/-- The constructor state of `BackgroundProcessor.__init__`: note that `ys`
holds bare Y-key names (`List String`), with no types. -/
structure BackgroundProcessor where
  dir_path : String
  x_and_type : String × PyType
  ys : List String
  resolution : ℕ

/-- The Y arguments `run` passes to `selector`: `[(y, float) for y in ys]`. -/
def yFloatArgs (ys : List String) : List (String × PyType) :=
  ys.map (fun y => (y, PyType.float))

/-- `BackgroundProcessor.run`: opens the selector (modelled from the spec as a
parameter, since `csv_plot/csv.py` is missing from the sources) on the
directory, the configured X key and type, every Y key paired with `float`, and
the resolution, then runs the worker loop over it. -/
def run (bp : BackgroundProcessor)
    (selector : String → String × PyType → List (String × PyType) → ℕ → Query → Selected)
    (bs : List (Message × List Message)) : List Query × List Response × Outcome :=
  loop (selector bp.dir_path bp.x_and_type (yFloatArgs bp.ys) bp.resolution) bs

/-- Modelled from the spec: the Selection Provider's native X representation is
its configured X type (§6 `x_key_and_type`); this predicate says whether an X
value is of that representation. -/
def matchesType : PyType → XVal → Bool
  | PyType.datetime, XVal.dt _ => true
  | PyType.int, XVal.num _ => true
  | PyType.float, XVal.num _ => true
  | _, _ => false

/-- The concrete example provider of the source docstring and spec §8:
X = [1,5,9,13,17], "b" = ([2,6,10,14,18], [2,6,10,14,18]),
"d" = ([4,8,12,16,20], [4,8,12,16,20]). -/
def provEx : Query → Selected := fun _ =>
  { xs := [XVal.num 1, XVal.num 5, XVal.num 9, XVal.num 13, XVal.num 17]
    name_to_y :=
      [("b", { mins := [2, 6, 10, 14, 18], maxs := [2, 6, 10, 14, 18] }),
       ("d", { mins := [4, 8, 12, 16, 20], maxs := [4, 8, 12, 16, 20] })] }

/-- A provider whose every selection result has an empty X sequence. -/
def provEmpty : Query → Selected := fun _ => { xs := [], name_to_y := [] }

/-- A worker construction with an `int`-typed X axis, as in the source
docstring usage example (`("a", int)`). -/
def bpInt : BackgroundProcessor :=
  { dir_path := "dir", x_and_type := ("a", PyType.int), ys := ["b", "d"], resolution := 100 }

/-- A concrete selector-opening function: ignores its open arguments and
yields the docstring example provider. -/
def mkSelEx : String → String × PyType → List (String × PyType) → ℕ → Query → Selected :=
  fun _ _ _ _ => provEx

-- ===================================================================
-- Helper lemmas
-- ===================================================================

theorem drain_request_eq_getLast (ms : List Message) :
    ∀ (item : Message) (a b : Option ℚ) (rest : List Message),
      drain item ms = (Message.request a b, rest) →
      (item :: ms).getLast? = some (Message.request a b) := by
  induction ms with
  | nil =>
    intro item a b rest h
    unfold drain at h
    simp at h
    simp [h.1]
  | cons m tail ih =>
    intro item a b rest h
    cases m with
    | stop =>
      unfold drain at h
      simp at h
    | request a1 b1 =>
      unfold drain at h
      have := ih (Message.request a1 b1) a b rest h
      rw [List.getLast?_cons_cons]
      exact this

theorem step_stopped_of_stop (sel : Query → Selected) (batch : List Message) :
    step sel Message.stop batch = StepOut.stopped := by
  unfold step
  rfl

theorem step_answered_inv (sel : Query → Selected) (m : Message) (batch : List Message)
    (q : Query) (r : Response) (h : step sel m batch = StepOut.answered q r) :
    ∃ a b xs,
      (m :: batch).getLast? = some (Message.request a b) ∧
      toQuery a b = some q ∧
      normalizeXs (sel q).xs = some xs ∧
      r = Response.data xs (sel q).name_to_y := by
  cases m with
  | stop => simp [step] at h
  | request a0 b0 =>
    simp only [step] at h
    rcases hd : drain (Message.request a0 b0) batch with ⟨m2, rest⟩
    rw [hd] at h
    cases m2 with
    | stop => simp at h
    | request a2 b2 =>
      simp only at h
      cases hq : toQuery a2 b2 with
      | none => rw [hq] at h; simp at h
      | some q2 =>
        rw [hq] at h
        simp only at h
        cases hn : normalizeXs (sel q2).xs with
        | none => rw [hn] at h; simp at h
        | some xs2 =>
          rw [hn] at h
          simp only [StepOut.answered.injEq] at h
          refine ⟨a2, b2, xs2, ?_, ?_, ?_, ?_⟩
          · exact drain_request_eq_getLast batch (Message.request a0 b0) a2 b2 rest hd
          · rw [hq, h.1]
          · rw [← h.1]; exact hn
          · rw [← h.1, ← h.2]

theorem step_crashed_inv (sel : Query → Selected) (m : Message) (batch : List Message)
    (qs : List Query) (h : step sel m batch = StepOut.crashed qs) :
    qs = [] ∨ ∃ a b q,
      (m :: batch).getLast? = some (Message.request a b) ∧
      toQuery a b = some q ∧ qs = [q] := by
  cases m with
  | stop => simp [step] at h
  | request a0 b0 =>
    simp only [step] at h
    rcases hd : drain (Message.request a0 b0) batch with ⟨m2, rest⟩
    rw [hd] at h
    cases m2 with
    | stop => simp at h
    | request a2 b2 =>
      simp only at h
      cases hq : toQuery a2 b2 with
      | none => left; rw [hq] at h; simp at h; exact h
      | some q2 =>
        rw [hq] at h
        simp only at h
        cases hn : normalizeXs (sel q2).xs with
        | none =>
          right
          rw [hn] at h
          simp only [StepOut.crashed.injEq] at h
          exact ⟨a2, b2, q2,
            drain_request_eq_getLast batch (Message.request a0 b0) a2 b2 rest hd, hq, h.symm⟩
        | some xs2 => rw [hn] at h; simp at h

theorem queries_single_bounded (sel : Query → Selected) (a b : ℚ) :
    (loop sel [(Message.request (some a) (some b), [])]).1 =
      [Query.selectRange (XVal.dt (a - MARGIN * (b - a))) (XVal.dt (b + MARGIN * (b - a)))] := by
  cases hn : normalizeXs ((sel (Query.selectRange (XVal.dt (a - MARGIN * (b - a)))
      (XVal.dt (b + MARGIN * (b - a))))).xs) with
  | none => simp [loop, step, drain, toQuery, fromtimestamp, hn]
  | some xs => simp [loop, step, drain, toQuery, fromtimestamp, hn]

theorem timestampAll_map_dt (ts : List ℚ) :
    timestampAll (ts.map XVal.dt) = some ts := by
  induction ts with
  | nil => rfl
  | cons t rest ih => simp [timestampAll, timestamp, ih]

theorem timestampAll_dt_cons (t : ℚ) (ts : List ℚ) :
    timestampAll (XVal.dt t :: List.map XVal.dt ts) = some (t :: ts) := by
  have h := timestampAll_map_dt (t :: ts)
  simpa using h

-- ===================================================================
-- Claims
-- ===================================================================

/-- Claim C1 — latest-wins coalescing: for any backlog `m :: batch` enqueued
when the worker becomes ready, a single iteration issues at most one selector
query and sends at most one response, and any issued query is the translation
of the backlog's last message, which is then a (non-`Stop`) request; every
intermediate request is discarded without producing a query or a response. -/
theorem c1_latest_wins_coalescing (sel : Query → Selected) (m : Message) (batch : List Message) :
    (loop sel [(m, batch)]).1.length ≤ 1 ∧
    (loop sel [(m, batch)]).2.1.length ≤ 1 ∧
    ∀ q ∈ (loop sel [(m, batch)]).1,
      ∃ a b, (m :: batch).getLast? = some (Message.request a b) ∧ toQuery a b = some q := by
  cases h : step sel m batch with
  | stopped => simp [loop, h]
  | crashed qs =>
    rcases step_crashed_inv sel m batch qs h with hnil | ⟨a, b, q, hg, ht, hqs⟩
    · simp [loop, h, hnil]
    · refine ⟨?_, ?_, ?_⟩
      · simp [loop, h, hqs]
      · simp [loop, h]
      · intro q2 hq2
        simp [loop, h, hqs] at hq2
        exact ⟨a, b, hg, hq2 ▸ ht⟩
  | answered q r =>
    rcases step_answered_inv sel m batch q r h with ⟨a, b, xs1, hg, ht, hn, hr⟩
    refine ⟨?_, ?_, ?_⟩
    · simp [loop, h]
    · simp [loop, h]
    · intro q2 hq2
      simp [loop, h] at hq2
      exact ⟨a, b, hg, hq2 ▸ ht⟩

/-- Witness for C1 at a concrete input: two bounded requests pre-filled on the
channel; the (unique) query issued is the translation of the second one. -/
theorem c1_latest_wins_coalescing_witness :
    ∃ a b,
      ([Message.request (some 0) (some 1),
        Message.request (some 4.5) (some 13.5)] : List Message).getLast? =
          some (Message.request a b) ∧
      toQuery a b = some (Query.selectRange (XVal.dt 2.7) (XVal.dt 15.3)) :=
  (c1_latest_wins_coalescing provEx (Message.request (some 0) (some 1))
      [Message.request (some 4.5) (some 13.5)]).2.2
    (Query.selectRange (XVal.dt 2.7) (XVal.dt 15.3)) (by
      have h : (loop provEx [(Message.request (some 0) (some 1),
          [Message.request (some 4.5) (some 13.5)])]).1 =
          [Query.selectRange (XVal.dt 2.7) (XVal.dt 15.3)] := by
        simp [loop, step, drain, toQuery, fromtimestamp, provEx, normalizeXs, MARGIN]
        norm_num
      rw [h]
      exact List.mem_singleton.mpr rfl)

/-- Claim C2 — margin expansion: a surviving bounded request `(a, b)` queries
the selector over `[a - 0.2 * (b - a), b + 0.2 * (b - a))`; in particular
`(4.5, 13.5)` queries `[2.7, 15.3)`. -/
theorem c2_margin_expansion :
    (∀ (sel : Query → Selected) (a b : ℚ),
       (loop sel [(Message.request (some a) (some b), [])]).1 =
         [Query.selectRange (XVal.dt (a - MARGIN * (b - a)))
           (XVal.dt (b + MARGIN * (b - a)))]) ∧
    (∀ sel : Query → Selected,
       (loop sel [(Message.request (some (4.5 : ℚ)) (some 13.5), [])]).1 =
         [Query.selectRange (XVal.dt 2.7) (XVal.dt 15.3)]) := by
  refine ⟨fun sel a b => queries_single_bounded sel a b, fun sel => ?_⟩
  rw [queries_single_bounded sel 4.5 13.5]
  norm_num [MARGIN]

/-- Claim C3, counterexample: with a provider whose selection result has an
empty X sequence, the worker does not emit any "empty" response — the response
list is empty and the run ends in a crash (`first_x, *_ = selected.xs` raises),
contradicting "emits a distinct, valid empty response rather than failing". -/
theorem c3_empty_response_counterexample :
    loop provEmpty [(Message.request none none, [])] =
      ([Query.selectAll], [], Outcome.crashed) := rfl

/-- Claim C3 (amended) — when a provider query returns a Selection Result whose
X sequence is empty, the worker fails (normalization raises and the loop
terminates) without sending any response on the channel; no distinct "empty"
response exists. -/
theorem c3_empty_result_crashes (sel : Query → Selected)
    (h : (sel Query.selectAll).xs = []) :
    loop sel [(Message.request none none, [])] =
      ([Query.selectAll], [], Outcome.crashed) := by
  have hs : step sel (Message.request none none) [] = StepOut.crashed [Query.selectAll] := by
    simp [step, drain, toQuery, h, normalizeXs]
  simp [loop, hs]

/-- Witness for the amended C3 at the concrete empty provider. -/
theorem c3_empty_result_crashes_witness :
    loop provEmpty [(Message.request none none, [])] =
      ([Query.selectAll], [], Outcome.crashed) :=
  c3_empty_result_crashes provEmpty rfl

/-- Claim C4 — malformed request atomicity: whenever the request surviving the
drain has exactly one endpoint present, the worker crashes (the assertion
fires) with no selector query issued and no response sent. -/
theorem c4_malformed_fail_fast (sel : Query → Selected)
    (a b a0 b0 : Option ℚ) (batch rest : List Message)
    (later : List (Message × List Message))
    (hd : drain (Message.request a0 b0) batch = (Message.request a b, rest))
    (hone : a.isNone ≠ b.isNone) :
    loop sel ((Message.request a0 b0, batch) :: later) = ([], [], Outcome.crashed) := by
  have hq : toQuery a b = none := by
    cases a with
    | none =>
      cases b with
      | none => simp at hone
      | some vb => rfl
    | some va =>
      cases b with
      | none => rfl
      | some vb => simp at hone
  have hs : step sel (Message.request a0 b0) batch = StepOut.crashed [] := by
    simp only [step, hd]
    simp [hq]
  simp [loop, hs]

/-- Witness for C4 at a concrete one-sided request. -/
theorem c4_malformed_fail_fast_witness :
    loop provEx [(Message.request (some 1) none, [])] = ([], [], Outcome.crashed) :=
  c4_malformed_fail_fast provEx (some 1) none (some 1) none [] [] [] rfl (by simp)

/-- Claim C5 — Stop protocol: over any schedule of message batches, if a
`StopAck` is ever sent then it is the last response (exactly one, nothing
after it), and the run ends in clean `Stop` termination exactly when a
`StopAck` was sent. -/
theorem c5_stop_protocol (sel : Query → Selected) (bs : List (Message × List Message)) :
    (Response.stopAck ∈ (loop sel bs).2.1 →
       ∃ pre, (loop sel bs).2.1 = pre ++ [Response.stopAck] ∧ Response.stopAck ∉ pre) ∧
    ((loop sel bs).2.2 = Outcome.stopped ↔ Response.stopAck ∈ (loop sel bs).2.1) := by
  induction bs with
  | nil => simp [loop]
  | cons hd tl ih =>
    rcases hd with ⟨m, batch⟩
    cases h : step sel m batch with
    | stopped =>
      refine ⟨fun _ => ⟨[], ?_, ?_⟩, ?_⟩
      · simp [loop, h]
      · simp
      · simp [loop, h]
    | crashed qs =>
      refine ⟨fun hmem => ?_, ?_⟩
      · simp [loop, h] at hmem
      · simp [loop, h]
    | answered q r =>
      rcases step_answered_inv sel m batch q r h with ⟨a1, b1, xs1, hg1, ht1, hn1, hr⟩
      have hrne : Response.stopAck ≠ r := by rw [hr]; simp
      have hl : loop sel ((m, batch) :: tl) =
          (q :: (loop sel tl).1, r :: (loop sel tl).2.1, (loop sel tl).2.2) := by
        simp [loop, h]
      rw [hl]
      constructor
      · intro hmem
        rcases List.mem_cons.mp hmem with h1 | h2
        · exact absurd h1 hrne
        · obtain ⟨pre, hpre, hnot⟩ := ih.1 h2
          refine ⟨r :: pre, by simp [hpre], ?_⟩
          intro hc
          rcases List.mem_cons.mp hc with hc1 | hc2
          · exact hrne hc1
          · exact hnot hc2
      · constructor
        · intro ho
          exact List.mem_cons_of_mem r (ih.2.mp ho)
        · intro hmem
          rcases List.mem_cons.mp hmem with h1 | h2
          · exact absurd h1 hrne
          · exact ih.2.mpr h2

/-- Witness for C5: a `Stop` received as the blocking message yields the
single final `StopAck`. -/
theorem c5_stop_protocol_witness :
    ∃ pre, (loop provEx [(Message.stop, [])]).2.1 = pre ++ [Response.stopAck] ∧
      Response.stopAck ∉ pre :=
  (c5_stop_protocol provEx [(Message.stop, [])]).1 (by simp [loop, step])

/-- Claim C8 — X normalization rule: the conversion is decided by the first X
element alone; a sequence of temporal values is converted element-wise to its
numeric timestamps, while a sequence whose first element is numeric is passed
through completely unchanged (whatever the remaining elements are). -/
theorem c8_x_normalization :
    (∀ ts : List ℚ, ts ≠ [] →
       normalizeXs (ts.map XVal.dt) = some (ts.map XVal.num)) ∧
    (∀ (v : ℚ) (rest : List XVal),
       normalizeXs (XVal.num v :: rest) = some (XVal.num v :: rest)) := by
  constructor
  · intro ts hne
    cases ts with
    | nil => exact absurd rfl hne
    | cons t rest => simp [normalizeXs, timestampAll_dt_cons]
  · intro v rest
    rfl

/-- Witness for C8 on a concrete temporal sequence. -/
theorem c8_x_normalization_witness :
    normalizeXs ([1, 2].map XVal.dt) = some ([1, 2].map XVal.num) :=
  c8_x_normalization.1 [1, 2] (by simp)

/-- Claim C6, counterexample: a worker constructed with an `int`-typed X axis
(`bpInt`, the source docstring's own usage) still issues its range query with
`datetime` bounds (`datetime.fromtimestamp` is applied unconditionally), and a
`datetime` bound does not match an `int` X representation — refuting "the
query bounds match the provider's X representation for any X type". -/
theorem c6_bound_conversion_counterexample :
    (run bpInt mkSelEx [(Message.request (some 4.5) (some 13.5), [])]).1 =
      [Query.selectRange (XVal.dt 2.7) (XVal.dt 15.3)] ∧
    bpInt.x_and_type.2 = PyType.int ∧
    matchesType bpInt.x_and_type.2 (XVal.dt 2.7) = false := by
  refine ⟨?_, rfl, rfl⟩
  show (loop provEx [(Message.request (some 4.5) (some 13.5), [])]).1 =
    [Query.selectRange (XVal.dt 2.7) (XVal.dt 15.3)]
  rw [queries_single_bounded provEx 4.5 13.5]
  norm_num [MARGIN]

/-- Claim C6 (amended) — the worker always converts the two expanded numeric
bounds to the `datetime` temporal type before issuing the half-open-range
query, regardless of the X type it was constructed with; the bounds therefore
match the provider's X representation exactly when the configured X type is
`datetime`. -/
theorem c6_bounds_always_datetime :
    (∀ (bp : BackgroundProcessor)
       (selector : String → String × PyType → List (String × PyType) → ℕ → Query → Selected)
       (a b : ℚ),
       (run bp selector [(Message.request (some a) (some b), [])]).1 =
         [Query.selectRange (XVal.dt (a - MARGIN * (b - a)))
           (XVal.dt (b + MARGIN * (b - a)))]) ∧
    (∀ (t : PyType) (v : ℚ),
       matchesType t (XVal.dt v) = decide (t = PyType.datetime)) := by
  constructor
  · intro bp s a b
    exact queries_single_bounded (s bp.dir_path bp.x_and_type (yFloatArgs bp.ys) bp.resolution) a b
  · intro t v
    cases t <;> rfl

/-- Claim C7 — unbounded round-trip: an unbounded request issues the
full-selection query and emits exactly the provider's result, the X sequence
normalized and the Y mapping passed through unmodified; on the spec's concrete
provider the exact same X and Y data come back. -/
theorem c7_unbounded_round_trip :
    (∀ (sel : Query → Selected) (xs1 : List XVal),
       normalizeXs (sel Query.selectAll).xs = some xs1 →
       loop sel [(Message.request none none, [])] =
         ([Query.selectAll],
          [Response.data xs1 (sel Query.selectAll).name_to_y], Outcome.blocked)) ∧
    loop provEx [(Message.request none none, [])] =
      ([Query.selectAll],
       [Response.data [XVal.num 1, XVal.num 5, XVal.num 9, XVal.num 13, XVal.num 17]
          [("b", { mins := [2, 6, 10, 14, 18], maxs := [2, 6, 10, 14, 18] }),
           ("d", { mins := [4, 8, 12, 16, 20], maxs := [4, 8, 12, 16, 20] })]],
       Outcome.blocked) := by
  constructor
  · intro sel xs1 hn
    have hs : step sel (Message.request none none) [] =
        StepOut.answered Query.selectAll
          (Response.data xs1 (sel Query.selectAll).name_to_y) := by
      simp [step, drain, toQuery, hn]
    simp [loop, hs]
  · rfl

/-- Witness for C7: the general clause applied to the concrete example
provider, whose numeric X sequence normalizes to itself. -/
theorem c7_unbounded_round_trip_witness :
    loop provEx [(Message.request none none, [])] =
      ([Query.selectAll],
       [Response.data (provEx Query.selectAll).xs (provEx Query.selectAll).name_to_y],
       Outcome.blocked) :=
  c7_unbounded_round_trip.1 provEx (provEx Query.selectAll).xs rfl

/-- Claim C9 — empty-X failure propagation: normalization of an empty X
sequence fails, and a worker whose provider returns an empty X sequence for
the issued query crashes with no response sent, ignoring any later traffic. -/
theorem c9_empty_x_failure :
    normalizeXs [] = none ∧
    ∀ (sel : Query → Selected) (later : List (Message × List Message))
      (a b : Option ℚ) (q : Query),
      toQuery a b = some q → (sel q).xs = [] →
      loop sel ((Message.request a b, []) :: later) = ([q], [], Outcome.crashed) := by
  refine ⟨rfl, ?_⟩
  intro sel later a b q hq hx
  have hs : step sel (Message.request a b) [] = StepOut.crashed [q] := by
    simp [step, drain, hq, normalizeXs, hx]
  simp [loop, hs]

/-- Witness for C9 on the always-empty provider with a bounded request. -/
theorem c9_empty_x_failure_witness :
    loop provEmpty [(Message.request (some 0) (some 1), [])] =
      ([Query.selectRange (XVal.dt (-(1/5))) (XVal.dt (6/5))], [], Outcome.crashed) :=
  c9_empty_x_failure.2 provEmpty [] (some 0) (some 1)
    (Query.selectRange (XVal.dt (-(1/5))) (XVal.dt (6/5)))
    (by simp [toQuery, fromtimestamp, MARGIN]; norm_num) rfl

/-- Claim C10 — implicit Y typing: the constructor holds bare Y-key names, and
`run` opens the selector with every Y key paired with the `float` type: the
key list is preserved and every paired type is `float`. -/
theorem c10_y_keys_paired_float :
    ∀ (bp : BackgroundProcessor)
      (selector : String → String × PyType → List (String × PyType) → ℕ → Query → Selected)
      (bs : List (Message × List Message)),
      run bp selector bs =
        loop (selector bp.dir_path bp.x_and_type (yFloatArgs bp.ys) bp.resolution) bs ∧
      (yFloatArgs bp.ys).map Prod.fst = bp.ys ∧
      ((yFloatArgs bp.ys).all fun p => decide (p.2 = PyType.float)) = true := by
  intro bp s bs
  refine ⟨rfl, ?_, ?_⟩
  · have hcomp : (Prod.fst ∘ fun y : String => (y, PyType.float)) = id := rfl
    simp [yFloatArgs, List.map_map, hcomp]
  · simp [yFloatArgs, List.all_map, Function.comp]
